import Mathlib

/-!
Shallow embedding of `tms.py`, a single-day paper-trading simulator: a market
clock over minute barsets (`Market`), broker accounts (`BrokerAccount`), and
buy/sell positions (`Position`) traded through a `Broker` with spread-adjusted
execution pricing.

Conventions of the embedding:
* monetary and price values are exact rationals (`ℚ`);
* Python dictionaries become functions into `Option`;
* Python's reference identity for `Position` objects is modelled by a store
  (`Broker.heap`) from numeric ids to `Position` records; accounts hold lists
  of ids, and `Broker.nextId` is the next fresh id;
* a Python call that raises is modelled by returning `Except.error e` together
  with the state as mutated up to the point of the raise (so partial mutation
  is observable), where `e` names the exception raised.
-/

namespace TMS

/-- One minute bar for one symbol: the open/high/low/close columns of the
data frame row. Only `close` is ever read by the simulator. -/
structure Bar where
  open_ : ℚ
  high : ℚ
  low : ℚ
  close : ℚ
  deriving DecidableEq, Repr

/-- A barset: one row of the minute-bar data frame, mapping each symbol to its
bar. `name` is the row's timestamp (pandas exposes it as `.name`), modelled as
a natural number. -/
structure Barset where
  name : Nat
  bars : List (String × Bar)
  deriving DecidableEq, Repr

/-- Lookup of a symbol's bar in a barset (`barset[symbol]`); `none` models a
missing key. `symbol in barset` is `(lookupBar … symbol).isSome`. -/
def lookupBar : List (String × Bar) → String → Option Bar
  | [], _ => none
  | (s, b) :: rest, s2 => if s = s2 then some b else lookupBar rest s2

/-- The market clock (`Market` in `tms.py`): one day's bar sequence and the
cursor `i` into it. The Alpaca download in `__init__`/`load_day` is the
external data feed; the bars it produced are the `bars` field here. -/
structure Market where
  symbols : List String
  bars : List Barset
  i : Nat
  deriving DecidableEq, Repr

/-- Exceptions raised by `tms.py`. The first six are the engine's own
`raise Exception(…)` messages; the rest are Python runtime errors that the
code can run into. `invalidHandle` is an artifact of the id-based store: it
marks a `close_position` call with a position id not in the store, which
corresponds to no actual Python call. -/
inductive Err where
  | accountExists
  | accountNotExist
  | symbolNotInMarket
  | notEnoughMoney
  | invalidPositionType
  | operationNotRecognized
  | zeroDivisionError
  | typeError
  | keyError
  | valueError
  | attributeError
  | nameError
  | invalidHandle
  deriving DecidableEq, Repr

/-- `Market.next_barset` (tms.py lines 48–61): if the cursor is at or past the
end return `None` without mutation, else return the bar at the cursor and
increment the cursor. -/
def Market.next_barset (m : Market) : Option Barset × Market :=
  if m.i ≥ m.bars.length then (none, m)
  else (m.bars[m.i]?, { m with i := m.i + 1 })

/-- `Market.curr_barset` (lines 63–73): the bar at the cursor, or `None` if the
cursor is at or past the end. -/
def Market.curr_barset (m : Market) : Option Barset :=
  if m.i ≥ m.bars.length then none
  else m.bars[m.i]?

/-- `Market.reset` (lines 75–87). With no date the cursor is set back to 0.
With a date the source executes `load_day(date)` — a bare name, not
`self.load_day` — and `load_day` is not defined at module scope, so Python
raises `NameError` before touching any state. -/
def Market.reset (m : Market) (date : Option Nat) : Except Err Market :=
  match date with
  | some _ => Except.error Err.nameError
  | none => Except.ok { m with i := 0 }

/-- A position (`Position.__init__`, lines 322–347): plain field assignment,
with no validation of `position_type`. -/
structure Position where
  symbol : String
  open_date : Nat
  position_type : String
  open_price : ℚ
  units : ℚ
  sl : Option ℚ
  tp : Option ℚ
  close_price : Option ℚ
  close_date : Option Nat
  deriving DecidableEq, Repr

/-- `Position.__init__` as a function: every argument tuple yields a position;
the constructor performs no checks. -/
def Position.init (symbol : String) (open_date : Nat) (position_type : String)
    (open_price units : ℚ) (sl tp : Option ℚ)
    (close_price : Option ℚ) (close_date : Option Nat) : Position :=
  ⟨symbol, open_date, position_type, open_price, units, sl, tp, close_price, close_date⟩

/-- `Position.get_profit` (lines 359–376): if the position is closed the given
price is replaced by `close_price`; `buy` yields `units * (price − open_price)`,
`sell` yields `units * (−price + open_price)`, and any other tag raises
`Exception('Operation type not recognized!')`. -/
def Position.get_profit (p : Position) (price : ℚ) : Except Err ℚ :=
  let price := match p.close_price with
    | some cp => cp
    | none => price
  if p.position_type = "buy" then Except.ok (p.units * (price - p.open_price))
  else if p.position_type = "sell" then Except.ok (p.units * (-price + p.open_price))
  else Except.error Err.operationNotRecognized

/-- `Position.get_valuation` (lines 349–357): `units*open_price + profit(price)`;
propagates the exception `get_profit` may raise. -/
def Position.get_valuation (p : Position) (price : ℚ) : Except Err ℚ :=
  (p.get_profit price).map (fun profit => p.units * p.open_price + profit)

/-- `BrokerAccount` (lines 380–404): available cash, open-position ids and
closed-position (history) ids. -/
structure BrokerAccount where
  name : String
  available : ℚ
  positions : List Nat
  history : List Nat
  deriving DecidableEq, Repr

/-- The broker (`Broker`, lines 107–316): spread dictionary, market, account
dictionary, plus the position store (`heap`, `nextId`) that models Python
object identity. -/
structure Broker where
  assets_spread : String → Option ℚ
  market : Market
  accounts : String → Option BrokerAccount
  heap : Nat → Option Position
  nextId : Nat

/-- Dictionary write `self.accounts[n] = a` (and in-place mutation of the
account object stored under `n`). -/
def Broker.setAccount (b : Broker) (n : String) (a : BrokerAccount) : Broker :=
  { b with accounts := fun k => if k = n then some a else b.accounts k }

/-- In-place mutation of the position object with id `pid`. -/
def Broker.setHeap (b : Broker) (pid : Nat) (p : Position) : Broker :=
  { b with heap := fun k => if k = pid then some p else b.heap k }

/-- `Broker.get_account_balance` (lines 296–306), as an `Option`-valued
projection used to observe states. -/
def Broker.balanceOf (b : Broker) (n : String) : Option ℚ :=
  (b.accounts n).map (fun a => a.available)

/-- `Broker.curr_barset` (lines 140–141): delegate to the market. -/
def Broker.curr_barset (b : Broker) : Option Barset :=
  b.market.curr_barset

/-- `Broker.next_timestep` (lines 130–138): delegate to `Market.next_barset`. -/
def Broker.next_timestep (b : Broker) : Option Barset × Broker :=
  match b.market.next_barset with
  | (r, m2) => (r, { b with market := m2 })

/-- `Broker.open_account` (lines 144–155): fails if the name is already taken
(`if self.accounts.get(name):` — account objects are always truthy), else
creates the account with the initial deposit and empty collections. -/
def Broker.open_account (b : Broker) (name : String) (initial_deposit : ℚ) :
    Except Err Unit × Broker :=
  match b.accounts name with
  | some _ => (Except.error Err.accountExists, b)
  | none => (Except.ok (), b.setAccount name ⟨name, initial_deposit, [], []⟩)

/-- `Broker.deposit_into_account` (lines 181–192): fails if the account does
not exist, else adds `amount` (no sign check) to the available cash. -/
def Broker.deposit_into_account (b : Broker) (name : String) (amount : ℚ) :
    Except Err Unit × Broker :=
  match b.accounts name with
  | none => (Except.error Err.accountNotExist, b)
  | some acct =>
    (Except.ok (), b.setAccount name { acct with available := acct.available + amount })

/-- `Broker.open_position` (lines 195–234), with the source's check order:
account existence, then `assets_spread.get(symbol) is None or symbol not in
curr_barset()` (when the spread lookup succeeds but `curr_barset()` is `None`,
`symbol not in None` raises `TypeError`), then funds, then side. The execution
price is the current close, plus the spread for a `buy`; `units = value /
open_price` raises `ZeroDivisionError` on a zero price. On success the new
position is appended to the account's open list and `value` is deducted. -/
def Broker.open_position (b : Broker) (account_name symbol position_type : String)
    (value : ℚ) (sl tp : Option ℚ) : Except Err Nat × Broker :=
  match b.accounts account_name with
  | none => (Except.error Err.accountNotExist, b)
  | some acct =>
    match b.assets_spread symbol with
    | none => (Except.error Err.symbolNotInMarket, b)
    | some spread =>
      match b.market.curr_barset with
      | none => (Except.error Err.typeError, b)
      | some bs =>
        match lookupBar bs.bars symbol with
        | none => (Except.error Err.symbolNotInMarket, b)
        | some bar =>
          if acct.available < value then (Except.error Err.notEnoughMoney, b)
          else if position_type ≠ "buy" ∧ position_type ≠ "sell" then
            (Except.error Err.invalidPositionType, b)
          else
            let open_price := if position_type = "buy" then bar.close + spread else bar.close
            if open_price = 0 then (Except.error Err.zeroDivisionError, b)
            else
              let units := value / open_price
              let pos := Position.init symbol bs.name position_type open_price units sl tp none none
              let pid := b.nextId
              (Except.ok pid,
                { b with
                  heap := fun k => if k = pid then some pos else b.heap k,
                  nextId := pid + 1,
                  accounts := fun k =>
                    if k = account_name then
                      some { acct with
                             positions := acct.positions ++ [pid],
                             available := acct.available - value }
                    else b.accounts k })

/-- Python's `list.remove`: drop the first occurrence, `none` when the element
is absent (`ValueError`). -/
def removeFirst : List Nat → Nat → Option (List Nat)
  | [], _ => none
  | y :: ys, x => if y = x then some ys else (removeFirst ys x).map (fun l => y :: l)

/-- Tail of `Broker.close_position` (lines 290–293), after `close_price` has
already been assigned on the position `pos2`: set `close_date` from
`curr_barset().name` (`AttributeError` when the clock is exhausted, the
assignment to `close_price` persisting), remove the id from the open list
(`ValueError` when absent, mutations persisting), append it to history, and
credit `get_valuation(price)` — whose exception, for an unrecognized side,
leaves the collection moves in place. -/
def Broker.closeFinish (b : Broker) (account_name : String) (pid : Nat)
    (pos2 : Position) (price : ℚ) (acct : BrokerAccount) : Except Err Unit × Broker :=
  match b.market.curr_barset with
  | none => (Except.error Err.attributeError, b.setHeap pid pos2)
  | some bs =>
    let pos3 := { pos2 with close_date := some bs.name }
    let b3 := b.setHeap pid pos3
    match removeFirst acct.positions pid with
    | none => (Except.error Err.valueError, b3)
    | some l2 =>
      let acct2 := { acct with positions := l2, history := acct.history ++ [pid] }
      match pos3.get_valuation price with
      | Except.error e => (Except.error e, b3.setAccount account_name acct2)
      | Except.ok v =>
        (Except.ok (), b3.setAccount account_name { acct2 with available := acct2.available + v })

/-- `Broker.close_position` (lines 268–293): after the account check, the price
is the given one, else the current close for the position's symbol
(`None[…]` raises `TypeError` on an exhausted clock, `KeyError` on a missing
symbol). Then `close_price` is assigned; for a `sell` the spread is added to it
(`price + None` raises `TypeError` when the spread lookup fails, the plain
assignment persisting); the remaining steps are `closeFinish`. The returned
state of each error case is the state as mutated up to the raise. -/
def Broker.close_position (b : Broker) (account_name : String) (pid : Nat)
    (priceArg : Option ℚ) : Except Err Unit × Broker :=
  match b.accounts account_name with
  | none => (Except.error Err.accountNotExist, b)
  | some acct =>
    match b.heap pid with
    | none => (Except.error Err.invalidHandle, b)
    | some pos =>
      let priceRes : Except Err ℚ :=
        match priceArg with
        | some p => Except.ok p
        | none =>
          match b.market.curr_barset with
          | none => Except.error Err.typeError
          | some bs =>
            match lookupBar bs.bars pos.symbol with
            | none => Except.error Err.keyError
            | some bar => Except.ok bar.close
      match priceRes with
      | Except.error e => (Except.error e, b)
      | Except.ok price =>
        if pos.position_type = "sell" then
          match b.assets_spread pos.symbol with
          | none => (Except.error Err.typeError, b.setHeap pid { pos with close_price := some price })
          | some s =>
            b.closeFinish account_name pid { pos with close_price := some (price + s) } price acct
        else
          b.closeFinish account_name pid { pos with close_price := some price } price acct

/-- The `for p in to_close: self.close_position(account_name, p, price)` loop of
`close_positions`: sequential closes, aborting on the first exception with the
earlier iterations' effects kept. -/
def Broker.closeLoop (b : Broker) (account_name : String) (ps : List Nat)
    (priceArg : Option ℚ) : Except Err Unit × Broker :=
  match ps with
  | [] => (Except.ok (), b)
  | p :: rest =>
    match b.close_position account_name p priceArg with
    | (Except.error e, b2) => (Except.error e, b2)
    | (Except.ok _, b2) => b2.closeLoop account_name rest priceArg

/-- `Broker.close_positions` (lines 237–266): account and symbol checks as in
`open_position`, then the ids of the account's open positions for the symbol
are collected and closed one by one; the collected list is returned. -/
def Broker.close_positions (b : Broker) (account_name symbol : String)
    (priceArg : Option ℚ) : Except Err (List Nat) × Broker :=
  match b.accounts account_name with
  | none => (Except.error Err.accountNotExist, b)
  | some acct =>
    match b.assets_spread symbol with
    | none => (Except.error Err.symbolNotInMarket, b)
    | some _ =>
      match b.market.curr_barset with
      | none => (Except.error Err.typeError, b)
      | some bs =>
        match lookupBar bs.bars symbol with
        | none => (Except.error Err.symbolNotInMarket, b)
        | some _ =>
          let to_close := acct.positions.filter (fun p =>
            match b.heap p with
            | some pos => pos.symbol = symbol
            | none => false)
          match b.closeLoop account_name to_close priceArg with
          | (Except.error e, b2) => (Except.error e, b2)
          | (Except.ok _, b2) => (Except.ok to_close, b2)

/-- `Broker.reset` (lines 309–316): delegate to `Market.reset`. -/
def Broker.reset (b : Broker) (date : Option Nat) : Except Err Unit × Broker :=
  match b.market.reset date with
  | Except.error e => (Except.error e, b)
  | Except.ok m2 => (Except.ok (), { b with market := m2 })

/-! ### Concrete fixtures

A one-symbol market with a single bar whose close is 100, and one account
`"acc"` holding 1000 in cash, with spread 0 or 1/2 for the symbol. -/

/-- A bar with all four prices equal to 100. -/
def demoBar : Bar := ⟨100, 100, 100, 100⟩

/-- The single barset of the demo session, at timestamp 0. -/
def demoBarset : Barset := ⟨0, [("SYM", demoBar)]⟩

/-- A one-bar market positioned at its first (and only) minute. -/
def demoMarket : Market := ⟨["SYM"], [demoBarset], 0⟩

/-- One account `"acc"` with 1000 available and no positions. -/
def demoAccounts : String → Option BrokerAccount :=
  fun n => if n = "acc" then some ⟨"acc", 1000, [], []⟩ else none

/-- Demo broker whose symbol has spread 0. -/
def demoBroker0 : Broker :=
  ⟨fun s => if s = "SYM" then some 0 else none, demoMarket, demoAccounts, fun _ => none, 0⟩

/-- Demo broker whose symbol has spread 1/2. -/
def demoBrokerHalf : Broker :=
  ⟨fun s => if s = "SYM" then some (1/2) else none, demoMarket, demoAccounts, fun _ => none, 0⟩

/-- Demo broker (spread 0) whose only bar closes at 0. -/
def demoBrokerZeroClose : Broker :=
  ⟨fun s => if s = "SYM" then some 0 else none, ⟨["SYM"], [⟨0, [("SYM", ⟨0, 0, 0, 0⟩)]⟩], 0⟩,
    demoAccounts, fun _ => none, 0⟩

/-- The demo market with its cursor already past the last bar. -/
def demoMarketEnd : Market := ⟨["SYM"], [demoBarset], 1⟩

/-- State after opening a sell of 1000 on the demo broker with spread 0. -/
def sellTrace1 : Broker := (demoBroker0.open_position "acc" "SYM" "sell" 1000 none none).2

/-- State after additionally closing that sell at the explicit price 300. -/
def sellTrace2 : Broker := (sellTrace1.close_position "acc" 0 (some 300)).2

/-- State after opening a sell of 1000 on the demo broker with spread 1/2. -/
def sellHalfTrace1 : Broker := (demoBrokerHalf.open_position "acc" "SYM" "sell" 1000 none none).2

/-- State after additionally closing that sell at the explicit price 90. -/
def sellHalfTrace2 : Broker := (sellHalfTrace1.close_position "acc" 0 (some 90)).2

/-- An open sell position of 10 units at price 100, used as a ready-made store entry. -/
def demoSellPos : Position := ⟨"SYM", 0, "sell", 100, 10, none, none, none, none⟩

/-- Demo broker (spread 1/2) whose account holds the open sell `demoSellPos`
under id 0. -/
def demoBrokerWithSell : Broker :=
  ⟨fun s => if s = "SYM" then some (1/2) else none, demoMarket,
    fun n => if n = "acc" then some ⟨"acc", 0, [0], []⟩ else none,
    fun k => if k = 0 then some demoSellPos else none, 1⟩

/-- An open buy position of 10 units at price 100. -/
def demoBuyPos : Position := ⟨"SYM", 0, "buy", 100, 10, none, none, none, none⟩

/-- Demo broker (spread 0) whose account holds the open buy `demoBuyPos`
under id 0. -/
def demoBrokerWithBuy : Broker :=
  ⟨fun s => if s = "SYM" then some 0 else none, demoMarket,
    fun n => if n = "acc" then some ⟨"acc", 0, [0], []⟩ else none,
    fun k => if k = 0 then some demoBuyPos else none, 1⟩

/-- A closed sell position (close price 300), kept only in history. -/
def demoClosedSellPos : Position := ⟨"SYM", 0, "sell", 100, 10, none, none, some 300, some 0⟩

/-- Demo broker (spread 0) whose account has `demoClosedSellPos` in history and
an empty open list. -/
def demoBrokerClosed : Broker :=
  ⟨fun s => if s = "SYM" then some 0 else none, demoMarket,
    fun n => if n = "acc" then some ⟨"acc", 0, [], [0]⟩ else none,
    fun k => if k = 0 then some demoClosedSellPos else none, 1⟩

/-- The spec's account invariant: every account's available cash is
nonnegative. -/
def CashNonneg (b : Broker) : Prop :=
  ∀ n acct, b.accounts n = some acct → 0 ≤ acct.available

/-! ### Characterization lemmas shared by the claim proofs -/

/-- `list.remove` fails (raises `ValueError`) exactly on a missing element. -/
theorem removeFirst_eq_none {l : List Nat} {x : Nat} (h : x ∉ l) :
    removeFirst l x = none := by
  induction l with
  | nil => rfl
  | cons y ys ih =>
    have hyx : y ≠ x := fun he => h (he ▸ List.mem_cons_self y ys)
    have hx : x ∉ ys := fun hm => h (List.mem_cons_of_mem y hm)
    simp [removeFirst, hyx, ih hx]

/-- `list.remove` succeeds on a present element. -/
theorem removeFirst_isSome {l : List Nat} {x : Nat} (h : x ∈ l) :
    ∃ l2, removeFirst l x = some l2 := by
  induction l with
  | nil => cases h
  | cons y ys ih =>
    by_cases hyx : y = x
    · exact ⟨ys, by simp [removeFirst, hyx]⟩
    · obtain ⟨l2, hl2⟩ := ih (by
        rcases List.mem_cons.mp h with h1 | h1
        · exact absurd h1.symm hyx
        · exact h1)
      exact ⟨y :: l2, by simp [removeFirst, hyx, hl2]⟩

/-- The only exception `get_valuation` can raise is the unrecognized-operation
one (from `get_profit`). -/
theorem get_valuation_error {p : Position} {price : ℚ} {e : Err}
    (h : p.get_valuation price = Except.error e) : e = Err.operationNotRecognized := by
  simp only [Position.get_valuation, Position.get_profit] at h
  split at h
  · simp [Except.map] at h
  · split at h
    · simp [Except.map] at h
    · simp only [Except.map] at h
      exact (Except.error.injEq _ _ ▸ h).symm ▸ rfl

/-- The tail of a close (`closeFinish`) either succeeds or raises one of
`AttributeError` (exhausted clock), `ValueError` (id not in the open list) or
the unrecognized-operation error (invalid side at valuation time). -/
theorem closeFinish_outcomes (b : Broker) (n : String) (pid : Nat) (pos2 : Position)
    (price : ℚ) (acct : BrokerAccount) :
    (b.closeFinish n pid pos2 price acct).1 = Except.ok () ∨
    (b.closeFinish n pid pos2 price acct).1 = Except.error Err.attributeError ∨
    (b.closeFinish n pid pos2 price acct).1 = Except.error Err.valueError ∨
    (b.closeFinish n pid pos2 price acct).1 = Except.error Err.operationNotRecognized := by
  simp only [Broker.closeFinish]
  cases hbar : b.market.curr_barset with
  | none => exact Or.inr (Or.inl rfl)
  | some bs =>
    dsimp only
    cases hrem : removeFirst acct.positions pid with
    | none => exact Or.inr (Or.inr (Or.inl rfl))
    | some l2 =>
      dsimp only
      cases hval : Position.get_valuation { pos2 with close_date := some bs.name } price with
      | error e =>
        have he := get_valuation_error hval
        subst he
        exact Or.inr (Or.inr (Or.inr rfl))
      | ok v => exact Or.inl rfl

/-- Outcomes of `close_position`: either a pre-mutation failure that leaves the
state unchanged (unknown account, unknown store id, `TypeError`/`KeyError`
during price resolution), or success, or one of the late errors that can
follow the `close_price` assignment. -/
theorem close_position_outcomes (b : Broker) (n : String) (pid : Nat) (pr : Option ℚ) :
    ((b.close_position n pid pr).2 = b ∧
      ((b.close_position n pid pr).1 = Except.error Err.accountNotExist ∨
       (b.close_position n pid pr).1 = Except.error Err.invalidHandle ∨
       (b.close_position n pid pr).1 = Except.error Err.typeError ∨
       (b.close_position n pid pr).1 = Except.error Err.keyError)) ∨
    ((b.close_position n pid pr).1 = Except.ok () ∨
     (b.close_position n pid pr).1 = Except.error Err.typeError ∨
     (b.close_position n pid pr).1 = Except.error Err.attributeError ∨
     (b.close_position n pid pr).1 = Except.error Err.valueError ∨
     (b.close_position n pid pr).1 = Except.error Err.operationNotRecognized) := by
  simp only [Broker.close_position]
  cases hacc : b.accounts n with
  | none => exact Or.inl ⟨rfl, Or.inl rfl⟩
  | some acct =>
    dsimp only
    cases hpos : b.heap pid with
    | none => exact Or.inl ⟨rfl, Or.inr (Or.inl rfl)⟩
    | some pos =>
      dsimp only
      have step : ∀ price : ℚ,
          ((if pos.position_type = "sell" then
              match b.assets_spread pos.symbol with
              | none => (Except.error Err.typeError, b.setHeap pid { pos with close_price := some price })
              | some s => b.closeFinish n pid { pos with close_price := some (price + s) } price acct
            else b.closeFinish n pid { pos with close_price := some price } price acct).1 = Except.ok () ∨
           (if pos.position_type = "sell" then
              match b.assets_spread pos.symbol with
              | none => (Except.error Err.typeError, b.setHeap pid { pos with close_price := some price })
              | some s => b.closeFinish n pid { pos with close_price := some (price + s) } price acct
            else b.closeFinish n pid { pos with close_price := some price } price acct).1 = Except.error Err.typeError ∨
           (if pos.position_type = "sell" then
              match b.assets_spread pos.symbol with
              | none => (Except.error Err.typeError, b.setHeap pid { pos with close_price := some price })
              | some s => b.closeFinish n pid { pos with close_price := some (price + s) } price acct
            else b.closeFinish n pid { pos with close_price := some price } price acct).1 = Except.error Err.attributeError ∨
           (if pos.position_type = "sell" then
              match b.assets_spread pos.symbol with
              | none => (Except.error Err.typeError, b.setHeap pid { pos with close_price := some price })
              | some s => b.closeFinish n pid { pos with close_price := some (price + s) } price acct
            else b.closeFinish n pid { pos with close_price := some price } price acct).1 = Except.error Err.valueError ∨
           (if pos.position_type = "sell" then
              match b.assets_spread pos.symbol with
              | none => (Except.error Err.typeError, b.setHeap pid { pos with close_price := some price })
              | some s => b.closeFinish n pid { pos with close_price := some (price + s) } price acct
            else b.closeFinish n pid { pos with close_price := some price } price acct).1 = Except.error Err.operationNotRecognized) := by
        intro price
        by_cases hsell : pos.position_type = "sell"
        · rw [if_pos hsell]
          cases hspr : b.assets_spread pos.symbol with
          | none => exact Or.inr (Or.inl rfl)
          | some s =>
            rcases closeFinish_outcomes b n pid { pos with close_price := some (price + s) } price acct with h | h | h | h
            · exact Or.inl h
            · exact Or.inr (Or.inr (Or.inl h))
            · exact Or.inr (Or.inr (Or.inr (Or.inl h)))
            · exact Or.inr (Or.inr (Or.inr (Or.inr h)))
        · rw [if_neg hsell]
          rcases closeFinish_outcomes b n pid { pos with close_price := some price } price acct with h | h | h | h
          · exact Or.inl h
          · exact Or.inr (Or.inr (Or.inl h))
          · exact Or.inr (Or.inr (Or.inr (Or.inl h)))
          · exact Or.inr (Or.inr (Or.inr (Or.inr h)))
      cases pr with
      | some p => exact Or.inr (step p)
      | none =>
        dsimp only
        cases hbar : b.market.curr_barset with
        | none => exact Or.inl ⟨rfl, Or.inr (Or.inr (Or.inl rfl))⟩
        | some bs =>
          dsimp only
          cases hfind : lookupBar bs.bars pos.symbol with
          | none => exact Or.inl ⟨rfl, Or.inr (Or.inr (Or.inr rfl))⟩
          | some bar => exact Or.inr (step bar.close)

/-- Writing an account whose cash is nonnegative preserves the invariant. -/
theorem cashNonneg_setAccount {b : Broker} (hb : CashNonneg b) {n : String}
    {a : BrokerAccount} (ha : 0 ≤ a.available) : CashNonneg (b.setAccount n a) := by
  intro k acct hk
  rcases eq_or_ne k n with h | h
  · subst h
    simp only [Broker.setAccount, if_pos rfl] at hk
    cases hk
    exact ha
  · simp only [Broker.setAccount, if_neg h] at hk
    exact hb k acct hk

/-- Success characterization of `open_position`: under the four passed checks
and a nonzero execution price, the call returns the fresh id and the state
with the new position in the store and the account debited. -/
theorem open_position_spec (b : Broker) (n sym side : String) (v : ℚ) (sl tp : Option ℚ)
    (acct : BrokerAccount) (spread : ℚ) (bs : Barset) (bar : Bar) (exec : ℚ)
    (hacct : b.accounts n = some acct)
    (hspread : b.assets_spread sym = some spread)
    (hbar : b.market.curr_barset = some bs)
    (hfind : lookupBar bs.bars sym = some bar)
    (hfunds : ¬ acct.available < v)
    (hside : side = "buy" ∨ side = "sell")
    (hexec : exec = if side = "buy" then bar.close + spread else bar.close)
    (hprice : exec ≠ 0) :
    (b.open_position n sym side v sl tp).1 = Except.ok b.nextId ∧
    (b.open_position n sym side v sl tp).2.market = b.market ∧
    (b.open_position n sym side v sl tp).2.assets_spread = b.assets_spread ∧
    (b.open_position n sym side v sl tp).2.heap b.nextId =
      some (Position.init sym bs.name side exec (v / exec) sl tp none none) ∧
    (∀ q, q ≠ b.nextId → (b.open_position n sym side v sl tp).2.heap q = b.heap q) ∧
    (b.open_position n sym side v sl tp).2.accounts n =
      some { acct with positions := acct.positions ++ [b.nextId],
                       available := acct.available - v } ∧
    (∀ k, k ≠ n → (b.open_position n sym side v sl tp).2.accounts k = b.accounts k) ∧
    (b.open_position n sym side v sl tp).2.nextId = b.nextId + 1 := by
  have hside2 : ¬(side ≠ "buy" ∧ side ≠ "sell") := by
    rcases hside with h | h <;> simp [h]
  subst hexec
  have hred : b.open_position n sym side v sl tp =
      (Except.ok b.nextId,
        { b with
          heap := fun k =>
            if k = b.nextId then
              some (Position.init sym bs.name side
                (if side = "buy" then bar.close + spread else bar.close)
                (v / (if side = "buy" then bar.close + spread else bar.close)) sl tp none none)
            else b.heap k,
          nextId := b.nextId + 1,
          accounts := fun k =>
            if k = n then
              some { acct with positions := acct.positions ++ [b.nextId], available := acct.available - v }
            else b.accounts k }) := by
    simp only [Broker.open_position, hacct, hspread, hbar, hfind]
    rw [if_neg hfunds, if_neg hside2, if_neg hprice]
  refine ⟨by rw [hred], by rw [hred], by rw [hred], ?_, ?_, ?_, ?_, by rw [hred]⟩
  · rw [hred]
    simp
  · intro q hq
    rw [hred]
    simp [hq]
  · rw [hred]
    simp
  · intro k hk
    rw [hred]
    simp [hk]

/-- Success characterization of `close_position` with an explicit price: under
a passing account check, a stored position with a valid side, a defined spread,
a live clock and membership of the id in the open list, the close records
`close_price` (with the spread added for a `sell`), stamps `close_date`, moves
the id to history and credits the valuation. -/
theorem close_position_spec (b : Broker) (n : String) (pid : Nat) (p : ℚ)
    (acct : BrokerAccount) (pos : Position) (s : ℚ) (bs : Barset) (l2 : List Nat) (cp : ℚ)
    (hacct : b.accounts n = some acct)
    (hpos : b.heap pid = some pos)
    (hside : pos.position_type = "buy" ∨ pos.position_type = "sell")
    (hspread : b.assets_spread pos.symbol = some s)
    (hbar : b.market.curr_barset = some bs)
    (hrem : removeFirst acct.positions pid = some l2)
    (hcp : cp = if pos.position_type = "sell" then p + s else p) :
    (b.close_position n pid (some p)).1 = Except.ok () ∧
    (b.close_position n pid (some p)).2.market = b.market ∧
    (b.close_position n pid (some p)).2.assets_spread = b.assets_spread ∧
    (b.close_position n pid (some p)).2.heap pid =
      some { pos with close_price := some cp, close_date := some bs.name } ∧
    (∀ q, q ≠ pid → (b.close_position n pid (some p)).2.heap q = b.heap q) ∧
    (b.close_position n pid (some p)).2.accounts n =
      some { acct with positions := l2, history := acct.history ++ [pid],
                       available := acct.available +
                         (pos.units * pos.open_price +
                          (if pos.position_type = "buy" then pos.units * (cp - pos.open_price)
                           else pos.units * (-cp + pos.open_price))) } ∧
    (∀ k, k ≠ n → (b.close_position n pid (some p)).2.accounts k = b.accounts k) ∧
    (b.close_position n pid (some p)).2.nextId = b.nextId := by
  subst hcp
  rcases hside with hb | hs
  · have hnotsell : pos.position_type ≠ "sell" := by rw [hb]; decide
    have hred : b.close_position n pid (some p) =
        (Except.ok (),
          { b with
            heap := fun k =>
              if k = pid then
                some { pos with close_price := some p, close_date := some bs.name }
              else b.heap k,
            accounts := fun k =>
              if k = n then
                some { acct with positions := l2, history := acct.history ++ [pid], available := acct.available + (pos.units * pos.open_price + pos.units * (p - pos.open_price)) }
              else b.accounts k }) := by
      simp only [Broker.close_position, hacct, hpos]
      rw [if_neg hnotsell]
      simp only [Broker.closeFinish, hbar, hrem, Broker.setHeap, Broker.setAccount,
        Position.get_valuation, Position.get_profit]
      rw [if_pos hb]
      simp only [Except.map]
    simp only [if_neg hnotsell]
    refine ⟨by rw [hred], by rw [hred], by rw [hred], ?_, ?_, ?_, ?_, by rw [hred]⟩
    · rw [hred]
      simp
    · intro q hq
      rw [hred]
      simp [hq]
    · rw [hred]
      simp [hb]
    · intro k hk
      rw [hred]
      simp [hk]
  · have hnotbuy : pos.position_type ≠ "buy" := by rw [hs]; decide
    have hred : b.close_position n pid (some p) =
        (Except.ok (),
          { b with
            heap := fun k =>
              if k = pid then
                some { pos with close_price := some (p + s), close_date := some bs.name }
              else b.heap k,
            accounts := fun k =>
              if k = n then
                some { acct with positions := l2, history := acct.history ++ [pid], available := acct.available + (pos.units * pos.open_price + pos.units * (-(p + s) + pos.open_price)) }
              else b.accounts k }) := by
      simp only [Broker.close_position, hacct, hpos]
      rw [if_pos hs]
      simp only [hspread, Broker.closeFinish, hbar, hrem, Broker.setHeap, Broker.setAccount,
        Position.get_valuation, Position.get_profit]
      rw [if_neg hnotbuy, if_pos hs]
      simp only [Except.map]
    simp only [if_pos hs]
    refine ⟨by rw [hred], by rw [hred], by rw [hred], ?_, ?_, ?_, ?_, by rw [hred]⟩
    · rw [hred]
      simp
    · intro q hq
      rw [hred]
      simp [hq]
    · rw [hred]
      simp [hnotbuy]
    · intro k hk
      rw [hred]
      simp [hk]

/-- Pointwise description of the demo trace on the zero-spread broker: opening
a sell of 1000 at close 100 succeeds with id 0, and closing it at the explicit
price 300 succeeds, leaving the store and ledger entries shown. -/
theorem sellTrace_spec :
    (demoBroker0.open_position "acc" "SYM" "sell" 1000 none none).1 = Except.ok 0 ∧
    sellTrace1.heap 0 = some (Position.init "SYM" 0 "sell" 100 (1000/100) none none none none) ∧
    sellTrace1.accounts "acc" = some ⟨"acc", 1000 - 1000, [] ++ [0], []⟩ ∧
    sellTrace1.market = demoBroker0.market ∧
    sellTrace1.assets_spread = demoBroker0.assets_spread ∧
    (sellTrace1.close_position "acc" 0 (some 300)).1 = Except.ok () ∧
    sellTrace2.heap 0 = some ⟨"SYM", 0, "sell", 100, 1000/100, none, none, some 300, some 0⟩ ∧
    sellTrace2.accounts "acc" =
      some ⟨"acc", 1000 - 1000 + ((1000/100) * 100 + (1000/100) * (-300 + 100)), [], [] ++ [0]⟩ ∧
    sellTrace2.market = demoBroker0.market ∧
    sellTrace2.assets_spread = demoBroker0.assets_spread := by
  obtain ⟨h1, hmkt1, hspr1, hheap1, _, hacc1, _, _⟩ :=
    open_position_spec demoBroker0 "acc" "SYM" "sell" 1000 none none
      ⟨"acc", 1000, [], []⟩ 0 demoBarset demoBar 100 rfl rfl rfl rfl (by decide)
      (Or.inr rfl) (by decide) (by decide)
  have hmkt1a : sellTrace1.market = demoBroker0.market := hmkt1
  have hspr1a : sellTrace1.assets_spread = demoBroker0.assets_spread := hspr1
  have hheap1a : sellTrace1.heap 0 =
      some (Position.init "SYM" 0 "sell" 100 (1000/100) none none none none) := hheap1
  have hacc1a : sellTrace1.accounts "acc" = some ⟨"acc", 1000 - 1000, [] ++ [0], []⟩ := hacc1
  obtain ⟨h2, hmkt2, hspr2, hheap2, _, hacc2, _, _⟩ :=
    close_position_spec sellTrace1 "acc" 0 300
      ⟨"acc", 1000 - 1000, [] ++ [0], []⟩
      (Position.init "SYM" 0 "sell" 100 (1000/100) none none none none)
      0 demoBarset [] 300
      hacc1a hheap1a (Or.inr rfl) (by rw [hspr1a]; rfl) (by rw [hmkt1a]; rfl) (by decide)
      (by norm_num [Position.init])
  have hmkt2a : sellTrace2.market = sellTrace1.market := hmkt2
  have hspr2a : sellTrace2.assets_spread = sellTrace1.assets_spread := hspr2
  have hheap2a : sellTrace2.heap 0 =
      some ⟨"SYM", 0, "sell", 100, 1000/100, none, none, some 300, some 0⟩ := hheap2
  have hacc2a : sellTrace2.accounts "acc" =
      some ⟨"acc", 1000 - 1000 + ((1000/100) * 100 + (1000/100) * (-300 + 100)), [], [] ++ [0]⟩ := hacc2
  exact ⟨h1, hheap1a, hacc1a, hmkt1a, hspr1a, h2, hheap2a, hacc2a,
    by rw [hmkt2a, hmkt1a], by rw [hspr2a, hspr1a]⟩

/-- Pointwise description of the demo trace on the spread-1/2 broker: opening
a sell of 1000 at close 100 yields open price 100 and 10 units; closing it at
the explicit price 90 records close price 90 + 1/2. -/
theorem sellHalfTrace_spec :
    (demoBrokerHalf.open_position "acc" "SYM" "sell" 1000 none none).1 = Except.ok 0 ∧
    sellHalfTrace1.heap 0 = some (Position.init "SYM" 0 "sell" 100 (1000/100) none none none none) ∧
    (sellHalfTrace1.close_position "acc" 0 (some 90)).1 = Except.ok () ∧
    sellHalfTrace2.heap 0 =
      some ⟨"SYM", 0, "sell", 100, 1000/100, none, none, some (181/2), some 0⟩ := by
  obtain ⟨h1, hmkt1, hspr1, hheap1, _, hacc1, _, _⟩ :=
    open_position_spec demoBrokerHalf "acc" "SYM" "sell" 1000 none none
      ⟨"acc", 1000, [], []⟩ (1/2) demoBarset demoBar 100 rfl rfl rfl rfl (by decide)
      (Or.inr rfl) (by decide) (by decide)
  have hmkt1a : sellHalfTrace1.market = demoBrokerHalf.market := hmkt1
  have hspr1a : sellHalfTrace1.assets_spread = demoBrokerHalf.assets_spread := hspr1
  have hheap1a : sellHalfTrace1.heap 0 =
      some (Position.init "SYM" 0 "sell" 100 (1000/100) none none none none) := hheap1
  have hacc1a : sellHalfTrace1.accounts "acc" = some ⟨"acc", 1000 - 1000, [] ++ [0], []⟩ := hacc1
  obtain ⟨h2, _, _, hheap2, _, _, _, _⟩ :=
    close_position_spec sellHalfTrace1 "acc" 0 90
      ⟨"acc", 1000 - 1000, [] ++ [0], []⟩
      (Position.init "SYM" 0 "sell" 100 (1000/100) none none none none)
      (1/2) demoBarset [] (181/2)
      hacc1a hheap1a (Or.inr rfl) (by rw [hspr1a]; rfl) (by rw [hmkt1a]; rfl) (by decide)
      (by norm_num [Position.init])
  have hheap2a : sellHalfTrace2.heap 0 =
      some ⟨"SYM", 0, "sell", 100, 1000/100, none, none, some (181/2), some 0⟩ := hheap2
  exact ⟨h1, hheap1a, h2, hheap2a⟩

/-- Re-closing the already-closed demo sell at the explicit price 50 fails with
`ValueError` at `positions.remove`, but only after overwriting the stored
position's `close_price` (to 50 plus the spread 0) and `close_date`. -/
theorem sellTrace2_reclose :
    (sellTrace2.close_position "acc" 0 (some 50)).1 = Except.error Err.valueError ∧
    (sellTrace2.close_position "acc" 0 (some 50)).2.heap 0 =
      some ⟨"SYM", 0, "sell", 100, 1000/100, none, none, some (50 + 0), some 0⟩ := by
  obtain ⟨_, _, _, _, _, _, hheap2, hacc2, hmkt2, hspr2⟩ := sellTrace_spec
  have hbar2 : sellTrace2.market.curr_barset = some demoBarset := by rw [hmkt2]; rfl
  have hspr : sellTrace2.assets_spread "SYM" = some 0 := by rw [hspr2]; rfl
  constructor
  · simp only [Broker.close_position, hacc2, hheap2, hspr, Broker.closeFinish, hbar2,
      removeFirst, Broker.setHeap]
    simp [demoBarset]
  · simp only [Broker.close_position, hacc2, hheap2, hspr, Broker.closeFinish, hbar2,
      removeFirst, Broker.setHeap]
    simp [demoBarset]


/-! ### Claim theorems -/

/-- C5: for every clock state, if the cursor is at or past the end of the bar
sequence `next_barset` returns `NONE` and leaves the whole clock unchanged (so
repeated end-of-session calls are idempotent); otherwise it returns exactly the
bar `curr_barset` reported immediately before the call — which exists — and
increments the cursor by one. -/
theorem c5_advance_spec (m : Market) :
    (m.bars.length ≤ m.i → m.next_barset = (none, m)) ∧
    (m.i < m.bars.length →
      m.next_barset = (m.curr_barset, { m with i := m.i + 1 }) ∧ m.curr_barset.isSome) := by
  constructor
  · intro h
    simp [Market.next_barset, ge_iff_le, h]
  · intro h
    have h2 : ¬ m.i ≥ m.bars.length := not_le.mpr h
    constructor
    · simp [Market.next_barset, Market.curr_barset, h2]
    · simp [Market.curr_barset, h2, List.getElem?_eq_getElem h]

/-- C5 witness: the exhausted demo clock returns `NONE` unchanged, and the
one-bar demo clock at cursor 0 returns its current bar and steps to cursor 1. -/
theorem c5_advance_spec_witness :
    demoMarketEnd.next_barset = (none, demoMarketEnd) ∧
    (demoMarket.next_barset = (demoMarket.curr_barset, { demoMarket with i := demoMarket.i + 1 }) ∧
      demoMarket.curr_barset.isSome) :=
  ⟨(c5_advance_spec demoMarketEnd).1 (by decide), (c5_advance_spec demoMarket).2 (by decide)⟩

/-- C7 (code bug): `reset` with no date sets the cursor to 0 and changes
nothing else; but `reset` with a date is not equivalent to reloading the
session — line 84 of the source calls the bare, unresolved name `load_day`
instead of `self.load_day`, so every dated reset raises `NameError`, for every
date and every clock state. -/
theorem c7_reset_behavior :
    (∀ m : Market, m.reset none = Except.ok { m with i := 0 }) ∧
    (∀ (m : Market) (d : Nat), m.reset (some d) = Except.error Err.nameError) :=
  ⟨fun _ => rfl, fun _ _ => rfl⟩

/-- C8 counterexample: constructing a `Position` with the invalid side tag
`"hold"` is not rejected with `InvalidSide` — `Position.__init__` performs no
validation, so the construction yields a fully formed position carrying the
invalid tag. -/
theorem c8_counterexample :
    Position.init "SYM" 0 "hold" 100 10 none none none none =
      { symbol := "SYM", open_date := 0, position_type := "hold", open_price := 100,
        units := 10, sl := none, tp := none, close_price := none, close_date := none } := rfl

/-- C8 (amended): `Position` construction itself never validates the side;
instead, `open_position` rejects any side outside buy/sell with the
invalid-side error before constructing a position or mutating state, and
`get_profit` on a position carrying an invalid side fails with the
unrecognized-operation error. -/
theorem c8_side_validation_amended :
    (∀ (b : Broker) (n sym side : String) (v : ℚ) (sl tp : Option ℚ)
        (acct : BrokerAccount) (spread : ℚ) (bs : Barset) (bar : Bar),
      b.accounts n = some acct → b.assets_spread sym = some spread →
      b.market.curr_barset = some bs → lookupBar bs.bars sym = some bar →
      ¬ acct.available < v → side ≠ "buy" → side ≠ "sell" →
      b.open_position n sym side v sl tp = (Except.error Err.invalidPositionType, b)) ∧
    (∀ (p : Position) (price : ℚ), p.position_type ≠ "buy" → p.position_type ≠ "sell" →
      p.get_profit price = Except.error Err.operationNotRecognized) := by
  constructor
  · intro b n sym side v sl tp acct spread bs bar hacct hspread hbar hfind hfunds h1 h2
    simp only [Broker.open_position, hacct, hspread, hbar, hfind]
    rw [if_neg hfunds, if_pos ⟨h1, h2⟩]
  · intro p price h1 h2
    simp only [Position.get_profit]
    rw [if_neg h1, if_neg h2]

/-- C8 amended witness: the demo broker rejects an open with side `"hold"`
without mutating state, and `get_profit` on a `"hold"` position errors. -/
theorem c8_side_validation_amended_witness :
    demoBroker0.open_position "acc" "SYM" "hold" 1000 none none =
      (Except.error Err.invalidPositionType, demoBroker0) ∧
    (Position.init "SYM" 0 "hold" 100 10 none none none none).get_profit 100 =
      Except.error Err.operationNotRecognized :=
  ⟨c8_side_validation_amended.1 demoBroker0 "acc" "SYM" "hold" 1000 none none
      ⟨"acc", 1000, [], []⟩ 0 demoBarset demoBar rfl rfl rfl rfl (by decide) (by decide)
      (by decide),
    c8_side_validation_amended.2 (Position.init "SYM" 0 "hold" 100 10 none none none none) 100
      (by decide) (by decide)⟩

/-- C9: once the account, symbol, funds and side checks have passed, a zero
execution price (current close plus spread for a buy, bare close for a sell)
makes `open_position` raise `ZeroDivisionError` — an error distinct from each
of the named engine errors — without mutating state; with a nonzero execution
price the division is reached safely and the open succeeds. -/
theorem c9_division_by_zero (b : Broker) (n sym side : String) (v : ℚ) (sl tp : Option ℚ)
    (acct : BrokerAccount) (spread : ℚ) (bs : Barset) (bar : Bar) (exec : ℚ)
    (hacct : b.accounts n = some acct)
    (hspread : b.assets_spread sym = some spread)
    (hbar : b.market.curr_barset = some bs)
    (hfind : lookupBar bs.bars sym = some bar)
    (hfunds : ¬ acct.available < v)
    (hside : side = "buy" ∨ side = "sell")
    (hexec : exec = if side = "buy" then bar.close + spread else bar.close) :
    (exec = 0 →
      b.open_position n sym side v sl tp = (Except.error Err.zeroDivisionError, b) ∧
      Err.zeroDivisionError ≠ Err.accountNotExist ∧
      Err.zeroDivisionError ≠ Err.symbolNotInMarket ∧
      Err.zeroDivisionError ≠ Err.notEnoughMoney ∧
      Err.zeroDivisionError ≠ Err.invalidPositionType) ∧
    (exec ≠ 0 → (b.open_position n sym side v sl tp).1 = Except.ok b.nextId) := by
  constructor
  · intro h0
    have hside2 : ¬(side ≠ "buy" ∧ side ≠ "sell") := by
      rcases hside with h | h <;> simp [h]
    rw [hexec] at h0
    refine ⟨?_, by decide, by decide, by decide, by decide⟩
    simp only [Broker.open_position, hacct, hspread, hbar, hfind]
    rw [if_neg hfunds, if_neg hside2, if_pos h0]
  · intro hne
    exact (open_position_spec b n sym side v sl tp acct spread bs bar exec
      hacct hspread hbar hfind hfunds hside hexec hne).1

/-- C9 witness: selling when the current close is 0 raises the division error
and changes nothing, while selling at close 100 succeeds. -/
theorem c9_division_by_zero_witness :
    demoBrokerZeroClose.open_position "acc" "SYM" "sell" 1000 none none =
      (Except.error Err.zeroDivisionError, demoBrokerZeroClose) ∧
    (demoBroker0.open_position "acc" "SYM" "sell" 1000 none none).1 = Except.ok 0 :=
  ⟨((c9_division_by_zero demoBrokerZeroClose "acc" "SYM" "sell" 1000 none none
      ⟨"acc", 1000, [], []⟩ 0 ⟨0, [("SYM", ⟨0, 0, 0, 0⟩)]⟩ ⟨0, 0, 0, 0⟩ 0
      rfl rfl rfl rfl (by decide) (Or.inr rfl) (by decide)).1 rfl).1,
    (c9_division_by_zero demoBroker0 "acc" "SYM" "sell" 1000 none none
      ⟨"acc", 1000, [], []⟩ 0 demoBarset demoBar 100
      rfl rfl rfl rfl (by decide) (Or.inr rfl) (by decide)).2 (by decide)⟩


/-- C10: once the open checks pass and the execution price is nonzero (so the
open succeeds), the returned position satisfies `units * open_price =
requested_cash` exactly, `get_valuation(open_price) = requested_cash`, and
`get_profit(open_price) = 0`, for either side. -/
theorem c10_open_valuation (b : Broker) (n sym side : String) (v : ℚ) (sl tp : Option ℚ)
    (acct : BrokerAccount) (spread : ℚ) (bs : Barset) (bar : Bar) (exec : ℚ)
    (hacct : b.accounts n = some acct)
    (hspread : b.assets_spread sym = some spread)
    (hbar : b.market.curr_barset = some bs)
    (hfind : lookupBar bs.bars sym = some bar)
    (hfunds : ¬ acct.available < v)
    (hside : side = "buy" ∨ side = "sell")
    (hexec : exec = if side = "buy" then bar.close + spread else bar.close)
    (hprice : exec ≠ 0) :
    (b.open_position n sym side v sl tp).1 = Except.ok b.nextId ∧
    ∃ pos, (b.open_position n sym side v sl tp).2.heap b.nextId = some pos ∧
      pos.units * pos.open_price = v ∧
      pos.get_valuation pos.open_price = Except.ok v ∧
      pos.get_profit pos.open_price = Except.ok 0 := by
  obtain ⟨h1, _, _, hheap, _, _, _, _⟩ := open_position_spec b n sym side v sl tp acct
    spread bs bar exec hacct hspread hbar hfind hfunds hside hexec hprice
  refine ⟨h1, Position.init sym bs.name side exec (v / exec) sl tp none none, hheap, ?_, ?_, ?_⟩
  · show v / exec * exec = v
    exact div_mul_cancel₀ v hprice
  · rcases hside with h | h <;>
      simp [Position.get_valuation, Position.get_profit, Position.init, h, Except.map,
        div_mul_cancel₀ v hprice]
  · rcases hside with h | h <;>
      simp [Position.get_profit, Position.init, h]

/-- C10 witness: selling 1000 at close 100 yields a position with
`units * open_price = 1000`, valuation 1000 at its open price and zero profit
there. -/
theorem c10_open_valuation_witness :
    (demoBroker0.open_position "acc" "SYM" "sell" 1000 none none).1 = Except.ok 0 ∧
    ∃ pos, (demoBroker0.open_position "acc" "SYM" "sell" 1000 none none).2.heap 0 = some pos ∧
      pos.units * pos.open_price = 1000 ∧
      pos.get_valuation pos.open_price = Except.ok 1000 ∧
      pos.get_profit pos.open_price = Except.ok 0 :=
  c10_open_valuation demoBroker0 "acc" "SYM" "sell" 1000 none none ⟨"acc", 1000, [], []⟩ 0
    demoBarset demoBar 100 rfl rfl rfl rfl (by decide) (Or.inr rfl) (by decide) (by decide)

/-- C4: the spread charge is asymmetric — a buy opens at the close plus the
spread, a sell opens at the bare close, and a sell's close adds the spread to
the recorded close price; concretely, a sell of 1000 at close 100 with spread
1/2 opens at price 100 with 10 units, and closing it at 90 records close price
181/2 (= 90.5) with profit 10 * (100 − 181/2) = 95. -/
theorem c4_spread_asymmetry :
    (∀ (b : Broker) (n sym : String) (v : ℚ) (sl tp : Option ℚ)
        (acct : BrokerAccount) (spread : ℚ) (bs : Barset) (bar : Bar),
      b.accounts n = some acct → b.assets_spread sym = some spread →
      b.market.curr_barset = some bs → lookupBar bs.bars sym = some bar →
      ¬ acct.available < v → bar.close + spread ≠ 0 →
      ((b.open_position n sym "buy" v sl tp).2.heap b.nextId).map Position.open_price =
        some (bar.close + spread)) ∧
    (∀ (b : Broker) (n sym : String) (v : ℚ) (sl tp : Option ℚ)
        (acct : BrokerAccount) (spread : ℚ) (bs : Barset) (bar : Bar),
      b.accounts n = some acct → b.assets_spread sym = some spread →
      b.market.curr_barset = some bs → lookupBar bs.bars sym = some bar →
      ¬ acct.available < v → bar.close ≠ 0 →
      ((b.open_position n sym "sell" v sl tp).2.heap b.nextId).map Position.open_price =
        some bar.close) ∧
    (∀ (b : Broker) (n : String) (pid : Nat) (p : ℚ)
        (acct : BrokerAccount) (pos : Position) (s : ℚ) (bs : Barset) (l2 : List Nat),
      b.accounts n = some acct → b.heap pid = some pos → pos.position_type = "sell" →
      b.assets_spread pos.symbol = some s → b.market.curr_barset = some bs →
      removeFirst acct.positions pid = some l2 →
      (b.close_position n pid (some p)).1 = Except.ok () ∧
      ((b.close_position n pid (some p)).2.heap pid).map Position.close_price =
        some (some (p + s))) ∧
    (((sellHalfTrace1.heap 0).map Position.open_price = some 100 ∧
      (sellHalfTrace1.heap 0).map Position.units = some 10) ∧
     (sellHalfTrace2.heap 0).map Position.close_price = some (some (181/2)) ∧
     (sellHalfTrace2.heap 0).map (fun pos => pos.get_profit 90) =
       some (Except.ok (10 * (100 - 181/2)))) := by
  refine ⟨?_, ?_, ?_, ?_⟩
  · intro b n sym v sl tp acct spread bs bar hacct hspread hbar hfind hfunds hne
    obtain ⟨_, _, _, hheap, _, _, _, _⟩ := open_position_spec b n sym "buy" v sl tp acct
      spread bs bar (bar.close + spread) hacct hspread hbar hfind hfunds (Or.inl rfl)
      (by simp) hne
    rw [hheap]
    simp [Position.init]
  · intro b n sym v sl tp acct spread bs bar hacct hspread hbar hfind hfunds hne
    obtain ⟨_, _, _, hheap, _, _, _, _⟩ := open_position_spec b n sym "sell" v sl tp acct
      spread bs bar bar.close hacct hspread hbar hfind hfunds (Or.inr rfl)
      (by simp) hne
    rw [hheap]
    simp [Position.init]
  · intro b n pid p acct pos s bs l2 hacct hpos hsell hspread hbar hrem
    obtain ⟨h1, _, _, hheap, _, _, _, _⟩ := close_position_spec b n pid p acct pos s bs l2
      (p + s) hacct hpos (Or.inr hsell) hspread hbar hrem (by rw [if_pos hsell])
    refine ⟨h1, ?_⟩
    rw [hheap]
    simp
  · obtain ⟨_, hheap1, _, hheap2⟩ := sellHalfTrace_spec
    refine ⟨⟨?_, ?_⟩, ?_, ?_⟩
    · rw [hheap1]
      simp [Position.init]
    · rw [hheap1]
      simp only [Position.init, Option.map_some, Option.some.injEq]
      norm_num
    · rw [hheap2]
      simp
    · rw [hheap2]
      simp [Position.get_profit]
      norm_num

/-- C4 witness: with spread 0 a buy opens at close + 0 and a sell at the bare
close on the demo broker, and closing the ready-made open sell (spread 1/2) at
the explicit price 90 succeeds recording close price 90 + 1/2. -/
theorem c4_spread_asymmetry_witness :
    ((demoBroker0.open_position "acc" "SYM" "buy" 1000 none none).2.heap 0).map
        Position.open_price = some (demoBar.close + 0) ∧
    ((demoBroker0.open_position "acc" "SYM" "sell" 1000 none none).2.heap 0).map
        Position.open_price = some demoBar.close ∧
    (demoBrokerWithSell.close_position "acc" 0 (some 90)).1 = Except.ok () ∧
    ((demoBrokerWithSell.close_position "acc" 0 (some 90)).2.heap 0).map
        Position.close_price = some (some (90 + 1/2)) :=
  ⟨c4_spread_asymmetry.1 demoBroker0 "acc" "SYM" 1000 none none ⟨"acc", 1000, [], []⟩ 0
      demoBarset demoBar rfl rfl rfl rfl (by decide) (by simp [demoBar]),
    c4_spread_asymmetry.2.1 demoBroker0 "acc" "SYM" 1000 none none ⟨"acc", 1000, [], []⟩ 0
      demoBarset demoBar rfl rfl rfl rfl (by decide) (by decide),
    (c4_spread_asymmetry.2.2.1 demoBrokerWithSell "acc" 0 90 ⟨"acc", 0, [0], []⟩
      demoSellPos (1/2) demoBarset [] rfl rfl rfl rfl rfl (by decide)).1,
    (c4_spread_asymmetry.2.2.1 demoBrokerWithSell "acc" 0 90 ⟨"acc", 0, [0], []⟩
      demoSellPos (1/2) demoBarset [] rfl rfl rfl rfl rfl (by decide)).2⟩


/-- C3: for an account and a symbol whose spread is 0, once the open checks
pass and the current close is nonzero, opening a position of either side and
immediately closing that same position with the explicit price equal to its
open price both succeed and return the account's available cash exactly to its
pre-open value. -/
theorem c3_zero_spread_roundtrip (b : Broker) (n sym side : String) (v : ℚ) (sl tp : Option ℚ)
    (acct : BrokerAccount) (bs : Barset) (bar : Bar)
    (hacct : b.accounts n = some acct)
    (hspread : b.assets_spread sym = some 0)
    (hbar : b.market.curr_barset = some bs)
    (hfind : lookupBar bs.bars sym = some bar)
    (hfunds : ¬ acct.available < v)
    (hside : side = "buy" ∨ side = "sell")
    (hclose : bar.close ≠ 0) :
    (b.open_position n sym side v sl tp).1 = Except.ok b.nextId ∧
    ∃ pos, (b.open_position n sym side v sl tp).2.heap b.nextId = some pos ∧
      ((b.open_position n sym side v sl tp).2.close_position n b.nextId
          (some pos.open_price)).1 = Except.ok () ∧
      ((b.open_position n sym side v sl tp).2.close_position n b.nextId
          (some pos.open_price)).2.balanceOf n = some acct.available := by
  have hexec : bar.close = if side = "buy" then bar.close + 0 else bar.close := by
    rcases hside with h | h <;> simp [h]
  obtain ⟨h1, hmkt, hspr, hheap, _, haccn, _, _⟩ := open_position_spec b n sym side v sl tp
    acct 0 bs bar bar.close hacct hspread hbar hfind hfunds hside hexec hclose
  obtain ⟨l2, hrem⟩ := @removeFirst_isSome (acct.positions ++ [b.nextId]) b.nextId (by simp)
  obtain ⟨hc1, _, _, _, _, hcacc, _, _⟩ := close_position_spec
    (b.open_position n sym side v sl tp).2 n b.nextId bar.close
    { acct with positions := acct.positions ++ [b.nextId], available := acct.available - v }
    (Position.init sym bs.name side bar.close (v / bar.close) sl tp none none)
    0 bs l2 bar.close
    haccn hheap hside (by rw [hspr]; exact hspread) (by rw [hmkt]; exact hbar) hrem
    (by rcases hside with h | h <;> simp [Position.init, h])
  refine ⟨h1, Position.init sym bs.name side bar.close (v / bar.close) sl tp none none,
    hheap, hc1, ?_⟩
  show ((b.open_position n sym side v sl tp).2.close_position n b.nextId
    (some bar.close)).2.balanceOf n = some acct.available
  simp only [Broker.balanceOf, hcacc, Option.map_some']
  rcases hside with h | h <;>
    simp [Position.init, h, div_mul_cancel₀ v hclose]

/-- C3 witness: buying 1000 at close 100 with spread 0 and closing at the open
price restores the demo account's cash to 1000. -/
theorem c3_zero_spread_roundtrip_witness :
    (demoBroker0.open_position "acc" "SYM" "buy" 1000 none none).1 = Except.ok 0 ∧
    ∃ pos, (demoBroker0.open_position "acc" "SYM" "buy" 1000 none none).2.heap 0 = some pos ∧
      ((demoBroker0.open_position "acc" "SYM" "buy" 1000 none none).2.close_position "acc" 0
          (some pos.open_price)).1 = Except.ok () ∧
      ((demoBroker0.open_position "acc" "SYM" "buy" 1000 none none).2.close_position "acc" 0
          (some pos.open_price)).2.balanceOf "acc" = some 1000 :=
  c3_zero_spread_roundtrip demoBroker0 "acc" "SYM" "buy" 1000 none none ⟨"acc", 1000, [], []⟩
    demoBarset demoBar rfl rfl rfl rfl (by decide) (Or.inl rfl) (by decide)


/-- C1 counterexample: with spread 0, an account holding 1000 opens a sell of
1000 at close 100 (cash drops to 0) and closes it at the explicit price 300;
both operations succeed, yet the resulting available cash is −1000 < 0 — the
engine does not reject the loss-making close before mutating state. -/
theorem c1_counterexample :
    (demoBroker0.open_position "acc" "SYM" "sell" 1000 none none).1 = Except.ok 0 ∧
    (sellTrace1.close_position "acc" 0 (some 300)).1 = Except.ok () ∧
    sellTrace2.balanceOf "acc" = some (-1000) ∧ ((-1000 : ℚ) < 0) := by
  obtain ⟨h1, _, _, _, _, h2, _, hacc2, _, _⟩ := sellTrace_spec
  refine ⟨h1, h2, ?_, by norm_num⟩
  simp only [Broker.balanceOf, hacc2, Option.map_some']
  norm_num

/-- C1 (amended): available cash stays nonnegative across `open_account` with a
nonnegative deposit, `deposit` with a nonnegative amount, `open_position`
(whose funds check protects the debit) and `advance_time` (for every account,
on every outcome); `close_position` preserves it whenever the credited
valuation is nonnegative — for instance a buy position with nonnegative units
closed at a nonnegative explicit price — but the engine does not reject a
close whose valuation is negative, and such a close can drive available cash
below zero. -/
theorem c1_cash_nonneg_amended :
    (∀ (b : Broker) (n : String) (d : ℚ), CashNonneg b → 0 ≤ d →
      CashNonneg (b.open_account n d).2) ∧
    (∀ (b : Broker) (n : String) (a : ℚ), CashNonneg b → 0 ≤ a →
      CashNonneg (b.deposit_into_account n a).2) ∧
    (∀ (b : Broker) (n sym side : String) (v : ℚ) (sl tp : Option ℚ), CashNonneg b →
      CashNonneg (b.open_position n sym side v sl tp).2) ∧
    (∀ b : Broker, CashNonneg b → CashNonneg b.next_timestep.2) ∧
    (∀ (b : Broker) (n : String) (pid : Nat) (p : ℚ) (pos : Position), CashNonneg b →
      b.heap pid = some pos → pos.position_type = "buy" → 0 ≤ pos.units → 0 ≤ p →
      CashNonneg (b.close_position n pid (some p)).2) := by
  refine ⟨?_, ?_, ?_, ?_, ?_⟩
  · intro b n d hb hd
    simp only [Broker.open_account]
    cases hacc : b.accounts n with
    | some acct => exact hb
    | none => exact cashNonneg_setAccount hb hd
  · intro b n a hb ha
    simp only [Broker.deposit_into_account]
    cases hacc : b.accounts n with
    | none => exact hb
    | some acct => exact cashNonneg_setAccount hb (add_nonneg (hb n acct hacc) ha)
  · intro b n sym side v sl tp hb
    simp only [Broker.open_position]
    cases hacc : b.accounts n with
    | none => exact hb
    | some acct =>
      dsimp only
      cases hspr : b.assets_spread sym with
      | none => exact hb
      | some s =>
        dsimp only
        cases hbar : b.market.curr_barset with
        | none => exact hb
        | some bs =>
          dsimp only
          cases hfind : lookupBar bs.bars sym with
          | none => exact hb
          | some bar =>
            dsimp only
            split
            · exact hb
            · rename_i hfunds
              split
              · exact hb
              · split
                · split
                  · exact hb
                  · intro k a hk
                    dsimp only at hk
                    by_cases hkn : k = n
                    · rw [if_pos hkn] at hk
                      cases hk
                      exact sub_nonneg.mpr (not_lt.mp hfunds)
                    · rw [if_neg hkn] at hk
                      exact hb k a hk
                · split
                  · exact hb
                  · intro k a hk
                    dsimp only at hk
                    by_cases hkn : k = n
                    · rw [if_pos hkn] at hk
                      cases hk
                      exact sub_nonneg.mpr (not_lt.mp hfunds)
                    · rw [if_neg hkn] at hk
                      exact hb k a hk
  · intro b hb
    simp only [Broker.next_timestep]
    rcases hm : b.market.next_barset with ⟨r, m2⟩
    intro k a hk
    exact hb k a hk
  · intro b n pid p pos hb hpos hbuy hunits hp
    have hnotsell : pos.position_type ≠ "sell" := by rw [hbuy]; decide
    simp only [Broker.close_position]
    cases hacc : b.accounts n with
    | none => exact hb
    | some acct =>
      dsimp only
      rw [hpos]
      dsimp only
      rw [if_neg hnotsell]
      simp only [Broker.closeFinish]
      cases hbar : b.market.curr_barset with
      | none =>
        intro k a hk
        exact hb k a hk
      | some bs =>
        dsimp only
        cases hrem : removeFirst acct.positions pid with
        | none =>
          intro k a hk
          exact hb k a hk
        | some l2 =>
          dsimp only
          have hval : Position.get_valuation
              { pos with close_price := some p, close_date := some bs.name } p =
              Except.ok (pos.units * pos.open_price + pos.units * (p - pos.open_price)) := by
            simp [Position.get_valuation, Position.get_profit, hbuy, Except.map]
          rw [hval]
          dsimp only
          have hb3 : CashNonneg (Broker.setHeap b pid
              { pos with close_price := some p, close_date := some bs.name }) := hb
          refine cashNonneg_setAccount hb3 ?_
          show 0 ≤ acct.available + (pos.units * pos.open_price + pos.units * (p - pos.open_price))
          have hcr : pos.units * pos.open_price + pos.units * (p - pos.open_price) =
              pos.units * p := by ring
          rw [hcr]
          exact add_nonneg (hb n acct hacc) (mul_nonneg hunits hp)

/-- C1 amended witness: the ready-made open-buy broker satisfies the invariant
and still satisfies it after closing the buy at the explicit price 90. -/
theorem c1_cash_nonneg_amended_witness :
    CashNonneg demoBrokerWithBuy ∧
    CashNonneg (demoBrokerWithBuy.close_position "acc" 0 (some 90)).2 := by
  have hb : CashNonneg demoBrokerWithBuy := by
    intro k a hk
    by_cases hkn : k = "acc"
    · subst hkn
      simp only [demoBrokerWithBuy, if_pos rfl] at hk
      cases hk
      decide
    · simp only [demoBrokerWithBuy, if_neg hkn] at hk
      exact absurd hk (by simp)
  exact ⟨hb, c1_cash_nonneg_amended.2.2.2.2 demoBrokerWithBuy "acc" 0 90 demoBuyPos hb
    rfl rfl (by decide) (by decide)⟩


/-- C2 counterexample: calling `close_position` on the already-closed demo sell
fails (with `ValueError` at `positions.remove`), yet the failed call has
observably mutated state — the stored position differs afterwards — so the
operation is not atomic. -/
theorem c2_counterexample :
    (sellTrace2.close_position "acc" 0 (some 50)).1 = Except.error Err.valueError ∧
    (sellTrace2.close_position "acc" 0 (some 50)).2.heap 0 ≠ sellTrace2.heap 0 := by
  obtain ⟨h1, h2⟩ := sellTrace2_reclose
  obtain ⟨_, _, _, _, _, _, hheap2, _, _, _⟩ := sellTrace_spec
  refine ⟨h1, ?_⟩
  rw [h2, hheap2]
  simp only [ne_eq, Option.some.injEq, Position.mk.injEq, not_and]
  intro _ _ _ _ _ _ _ hcp
  exact absurd hcp (by norm_num)

/-- C2 (amended): `open_account`, `deposit_into_account` and `open_position`
are atomic — any failure leaves the state unchanged; `close_position` leaves
the state unchanged when it fails its account check, its handle lookup or its
price resolution (`KeyError`), but its failures after the `close_price`
assignment (missing spread on a sell close, exhausted clock at `close_date`,
position not in the open collection, unrecognized side at valuation) leave the
position — and possibly the collections — partially mutated, and
`close_positions` closes sequentially so an abort keeps earlier closes. -/
theorem c2_atomicity_amended :
    (∀ (b : Broker) (n : String) (d : ℚ) (e : Err),
      (b.open_account n d).1 = Except.error e → (b.open_account n d).2 = b) ∧
    (∀ (b : Broker) (n : String) (a : ℚ) (e : Err),
      (b.deposit_into_account n a).1 = Except.error e → (b.deposit_into_account n a).2 = b) ∧
    (∀ (b : Broker) (n sym side : String) (v : ℚ) (sl tp : Option ℚ) (e : Err),
      (b.open_position n sym side v sl tp).1 = Except.error e →
      (b.open_position n sym side v sl tp).2 = b) ∧
    (∀ (b : Broker) (n : String) (pid : Nat) (pr : Option ℚ),
      ((b.close_position n pid pr).1 = Except.error Err.accountNotExist ∨
       (b.close_position n pid pr).1 = Except.error Err.invalidHandle ∨
       (b.close_position n pid pr).1 = Except.error Err.keyError) →
      (b.close_position n pid pr).2 = b) := by
  refine ⟨?_, ?_, ?_, ?_⟩
  · intro b n d e h
    simp only [Broker.open_account] at h ⊢
    cases hacc : b.accounts n with
    | some acct => rfl
    | none =>
      rw [hacc] at h
      simp at h
  · intro b n a e h
    simp only [Broker.deposit_into_account] at h ⊢
    cases hacc : b.accounts n with
    | none => rfl
    | some acct =>
      rw [hacc] at h
      simp at h
  · intro b n sym side v sl tp e h
    have hd : (∃ pid, (b.open_position n sym side v sl tp).1 = Except.ok pid) ∨
        (b.open_position n sym side v sl tp).2 = b := by
      simp only [Broker.open_position]
      cases hacc : b.accounts n with
      | none => exact Or.inr rfl
      | some acct =>
        dsimp only
        cases hspr : b.assets_spread sym with
        | none => exact Or.inr rfl
        | some s =>
          dsimp only
          cases hbar : b.market.curr_barset with
          | none => exact Or.inr rfl
          | some bs =>
            dsimp only
            cases hfind : lookupBar bs.bars sym with
            | none => exact Or.inr rfl
            | some bar =>
              dsimp only
              split
              · exact Or.inr rfl
              · split
                · exact Or.inr rfl
                · split
                  · split
                    · exact Or.inr rfl
                    · exact Or.inl ⟨b.nextId, rfl⟩
                  · split
                    · exact Or.inr rfl
                    · exact Or.inl ⟨b.nextId, rfl⟩
    rcases hd with ⟨pid, hok⟩ | hunch
    · rw [h] at hok
      simp at hok
    · exact hunch
  · intro b n pid pr h
    rcases close_position_outcomes b n pid pr with ⟨hs, _⟩ | hB
    · exact hs
    · rcases h with h | h | h <;> rcases hB with h2 | h2 | h2 | h2 | h2 <;>
        rw [h] at h2 <;> simp at h2

/-- C2 amended witness: an open and a close against a nonexistent account fail
and leave the demo broker unchanged. -/
theorem c2_atomicity_amended_witness :
    (demoBroker0.open_position "ghost" "SYM" "buy" 1 none none).2 = demoBroker0 ∧
    (demoBroker0.close_position "ghost" 0 (some 1)).2 = demoBroker0 :=
  ⟨c2_atomicity_amended.2.2.1 demoBroker0 "ghost" "SYM" "buy" 1 none none
      Err.accountNotExist rfl,
    c2_atomicity_amended.2.2.2 demoBroker0 "ghost" 0 (some 1) (Or.inl rfl)⟩


/-- C6 counterexample: the demo sell position is closed with recorded close
price 300, yet a subsequent engine call — `close_position` aimed at that same
position — overwrites its `close_price` to 50 + 0 before failing, so closed
positions are not immutable. -/
theorem c6_counterexample :
    (sellTrace2.heap 0).map Position.close_price = some (some 300) ∧
    ((sellTrace2.close_position "acc" 0 (some 50)).2.heap 0).map Position.close_price =
      some (some (50 + 0)) ∧
    some (some ((50 : ℚ) + 0)) ≠ some (some (300 : ℚ)) := by
  obtain ⟨_, h2⟩ := sellTrace2_reclose
  obtain ⟨_, _, _, _, _, _, hheap2, _, _, _⟩ := sellTrace_spec
  refine ⟨by rw [hheap2]; rfl, by rw [h2]; rfl, ?_⟩
  simp only [ne_eq, Option.some.injEq]
  norm_num

/-- C6 (amended): a closed position's stored fields are not changed by
`open_account`, `deposit_into_account`, `advance_time`, by `open_position`
(which writes only the fresh id), or by any `close_position` call aimed at a
different position; but a `close_position` call aimed at an already-closed
position (one no longer in the account's open collection) always fails — and
it overwrites that position's `close_price` and `close_date` before failing
(see the counterexample). -/
theorem c6_closed_immutable_amended :
    (∀ (b : Broker) (n : String) (d : ℚ), (b.open_account n d).2.heap = b.heap) ∧
    (∀ (b : Broker) (n : String) (a : ℚ), (b.deposit_into_account n a).2.heap = b.heap) ∧
    (∀ b : Broker, b.next_timestep.2.heap = b.heap) ∧
    (∀ (b : Broker) (n sym side : String) (v : ℚ) (sl tp : Option ℚ) (q : Nat),
      q ≠ b.nextId → (b.open_position n sym side v sl tp).2.heap q = b.heap q) ∧
    (∀ (b : Broker) (n : String) (pid : Nat) (pr : Option ℚ) (q : Nat),
      q ≠ pid → (b.close_position n pid pr).2.heap q = b.heap q) ∧
    (∀ (b : Broker) (n : String) (pid : Nat) (p : ℚ) (acct : BrokerAccount) (pos : Position),
      b.accounts n = some acct → b.heap pid = some pos → pid ∉ acct.positions →
      ∃ e, (b.close_position n pid (some p)).1 = Except.error e) := by
  refine ⟨?_, ?_, ?_, ?_, ?_, ?_⟩
  · intro b n d
    simp only [Broker.open_account]
    cases hacc : b.accounts n <;> rfl
  · intro b n a
    simp only [Broker.deposit_into_account]
    cases hacc : b.accounts n <;> rfl
  · intro b
    simp only [Broker.next_timestep]
  · intro b n sym side v sl tp q hq
    simp only [Broker.open_position]
    cases hacc : b.accounts n with
    | none => rfl
    | some acct =>
      dsimp only
      cases hspr : b.assets_spread sym with
      | none => rfl
      | some s =>
        dsimp only
        cases hbar : b.market.curr_barset with
        | none => rfl
        | some bs =>
          dsimp only
          cases hfind : lookupBar bs.bars sym with
          | none => rfl
          | some bar =>
            dsimp only
            split
            · rfl
            · split
              · rfl
              · split
                · split
                  · rfl
                  · dsimp only
                    rw [if_neg hq]
                · split
                  · rfl
                  · dsimp only
                    rw [if_neg hq]
  · intro b n pid pr q hq
    simp only [Broker.close_position]
    cases hacc : b.accounts n with
    | none => rfl
    | some acct =>
      dsimp only
      cases hpos : b.heap pid with
      | none => rfl
      | some pos =>
        dsimp only
        have hfin : ∀ (pos2 : Position) (price : ℚ),
            (b.closeFinish n pid pos2 price acct).2.heap q = b.heap q := by
          intro pos2 price
          simp only [Broker.closeFinish]
          cases hbar : b.market.curr_barset with
          | none => simp [Broker.setHeap, hq]
          | some bs =>
            dsimp only
            cases hrem : removeFirst acct.positions pid with
            | none => simp [Broker.setHeap, hq]
            | some l2 =>
              dsimp only
              cases hval : Position.get_valuation
                  { pos2 with close_date := some bs.name } price with
              | error e => simp [Broker.setHeap, Broker.setAccount, hq]
              | ok val => simp [Broker.setHeap, Broker.setAccount, hq]
        cases pr with
        | some p =>
          dsimp only
          split
          · cases hspr : b.assets_spread pos.symbol with
            | none => simp [Broker.setHeap, hq]
            | some s => exact hfin { pos with close_price := some (p + s) } p
          · exact hfin { pos with close_price := some p } p
        | none =>
          dsimp only
          cases hbar : b.market.curr_barset with
          | none => rfl
          | some bs =>
            dsimp only
            cases hfind : lookupBar bs.bars pos.symbol with
            | none => rfl
            | some bar =>
              dsimp only
              split
              · cases hspr : b.assets_spread pos.symbol with
                | none => simp [Broker.setHeap, hq]
                | some s => exact hfin { pos with close_price := some (bar.close + s) } bar.close
              · exact hfin { pos with close_price := some bar.close } bar.close
  · intro b n pid p acct pos hacct hpos hnotin
    have hrem : removeFirst acct.positions pid = none := removeFirst_eq_none hnotin
    simp only [Broker.close_position, hacct, hpos]
    by_cases hsell : pos.position_type = "sell"
    · rw [if_pos hsell]
      cases hspr : b.assets_spread pos.symbol with
      | none => exact ⟨Err.typeError, rfl⟩
      | some s =>
        dsimp only
        simp only [Broker.closeFinish]
        cases hbar : b.market.curr_barset with
        | none => exact ⟨Err.attributeError, rfl⟩
        | some bs =>
          dsimp only
          rw [hrem]
          exact ⟨Err.valueError, rfl⟩
    · rw [if_neg hsell]
      simp only [Broker.closeFinish]
      cases hbar : b.market.curr_barset with
      | none => exact ⟨Err.attributeError, rfl⟩
      | some bs =>
        dsimp only
        rw [hrem]
        exact ⟨Err.valueError, rfl⟩

/-- C6 amended witness: a close aimed at a different id leaves the closed demo
position's store entry untouched, and a close aimed at the closed position
itself (absent from the open collection) fails. -/
theorem c6_closed_immutable_amended_witness :
    (demoBrokerClosed.close_position "acc" 1 (some 50)).2.heap 0 = demoBrokerClosed.heap 0 ∧
    ∃ e, (demoBrokerClosed.close_position "acc" 0 (some 50)).1 = Except.error e :=
  ⟨c6_closed_immutable_amended.2.2.2.2.1 demoBrokerClosed "acc" 1 (some 50) 0 (by decide),
    c6_closed_immutable_amended.2.2.2.2.2 demoBrokerClosed "acc" 0 50 ⟨"acc", 0, [], [0]⟩
      demoClosedSellPos rfl rfl (by decide)⟩

end TMS
